import Mathlib

/-!
Verification of the ReaderSpace library-management core
(`src/ReaderSpace_app.py`): member registration, the months-due
calculation, payment recording, the pending-payments check, and
report flattening, over a shallow embedding of the Python source.
-/

namespace ReaderSpace

/-- A calendar date, as carried by the `"YYYY-MM-DD"` strings and
`datetime` values of the source. -/
structure Date where
  year : Nat
  month : Nat
  day : Nat
deriving DecidableEq, Repr

/-- The monthly fee constant, `MONTHLY_FEE = 500` (line 15 of the source). -/
def MONTHLY_FEE : Nat := 500

/-- One payment event: `{"date": ..., "amount": ...}`. -/
structure Payment where
  date : Date
  amount : Nat
deriving DecidableEq, Repr

/-- A member record, with the fields built at registration
(lines 86-96 of the source). -/
structure Member where
  name : String
  father_name : String
  address : String
  email : String
  contact : String
  seatno : String
  admission_date : Date
  last_payment : Date
  payments : List Payment
deriving DecidableEq, Repr

/-- The dataset `data`: a Python dict from library code to member record,
modelled as an insertion-ordered association list. -/
abbrev Dataset := List (String × Member)

/-- Python dict assignment `data[k] = v`: overwrite in place if the key
exists, otherwise append at the end. -/
def dictInsert (d : Dataset) (k : String) (v : Member) : Dataset :=
  if d.any (fun p => p.1 = k) then
    d.map (fun p => if p.1 = k then (k, v) else p)
  else
    d ++ [(k, v)]

/-- Python dict lookup `data[k]` / `k in data`: first entry with the key. -/
def lookup (d : Dataset) (k : String) : Option Member :=
  (d.find? (fun p => p.1 = k)).map (fun p => p.2)

/-- Python `str(n)` on a nonnegative integer: the decimal numeral. -/
def pyStr (n : Nat) : String :=
  if n = 0 then "0"
  else (((Nat.digits 10 n).map Nat.digitChar).reverse).asString

/-- The error taxonomy of the app: missing/invalid input, unknown library
code, unreadable store. -/
inductive AppError where
  | validationError
  | notFound
  | storageError (msg : String)
deriving DecidableEq, Repr

/-- The persisted `library_users.json` as `load_data` sees it: the file is
absent, or present and the JSON parser either yields a dataset or raises. -/
inductive FileState where
  | absent
  | present (parsed : Except String Dataset)

/-- The helper `load_data` (lines 18-22): if the file exists, return the
result of `json.load`, letting a parse failure propagate as a storage
error; otherwise return the empty dict. -/
def load_data : FileState → Except AppError Dataset
  | .absent => .ok []
  | .present (.ok d) => .ok d
  | .present (.error e) => .error (.storageError e)

/-- The form fields of the New User Registration branch (lines 73-78). -/
structure RegInput where
  name : String
  father_name : String
  address : String
  email : String
  contact : String
  seatno : String
deriving DecidableEq, Repr

/-- The record built by the New User Registration branch (lines 86-96):
admission date and last payment both set to today, and a single initial
payment of `MONTHLY_FEE` dated today. -/
def mkNewMember (i : RegInput) (today : Date) : Member :=
  { name := i.name
    father_name := i.father_name
    address := i.address
    email := i.email
    contact := i.contact
    seatno := i.seatno
    admission_date := today
    last_payment := today
    payments := [{ date := today, amount := MONTHLY_FEE }] }

/-- The New User Registration branch (lines 81-97): reject if name,
father name or contact is empty; otherwise allocate the code
`"L" + str(len(data) + 2025001)`, insert the new record and return the
code together with the updated dataset. -/
def register (d : Dataset) (i : RegInput) (today : Date) :
    Except AppError (String × Dataset) :=
  if i.name = "" ∨ i.father_name = "" ∨ i.contact = "" then
    .error .validationError
  else
    let library_code := "L" ++ pyStr (d.length + 2025001)
    .ok (library_code, dictInsert d library_code (mkNewMember i today))

/-- The quantity `months_due` (lines 119 and 139):
`(today.year - last_payment.year) * 12 + (today.month - last_payment.month)`. -/
def monthsDue (last_payment as_of : Date) : Int :=
  ((as_of.year : Int) - (last_payment.year : Int)) * 12 +
    ((as_of.month : Int) - (last_payment.month : Int))

/-- The Confirm Payment mutation on one member (lines 142-149): the
number input enforces `months_paid ≥ 1`; the payment of
`months_paid * MONTHLY_FEE` dated today is appended and `last_payment`
is overwritten with today. -/
def recordPayment (user : Member) (months_paid : Nat) (today : Date) :
    Except AppError Member :=
  if months_paid < 1 then .error .validationError
  else
    let total_amount := months_paid * MONTHLY_FEE
    .ok { user with
          last_payment := today
          payments := user.payments ++ [{ date := today, amount := total_amount }] }

/-- The Record Payment branch over the whole dataset (lines 132-156):
unknown codes are rejected, otherwise the fetched member is mutated in
place. -/
def recordPaymentDS (d : Dataset) (code : String) (months_paid : Nat)
    (today : Date) : Except AppError Dataset :=
  match lookup d code with
  | none => .error .notFound
  | some user =>
    match recordPayment user months_paid today with
    | .error e => .error e
    | .ok user2 => .ok (d.map (fun p => if p.1 = code then (p.1, user2) else p))

/-- The app state threaded through one menu action: the in-memory dataset
and the sequence of snapshots handed to `save_data`. -/
structure AppState where
  data : Dataset
  saved : List Dataset
deriving DecidableEq, Repr

/-- The registration branch as a state transition: on failure nothing is
touched and `save_data` is not called; on success the dataset is replaced
and persisted (line 97). -/
def registerApp (st : AppState) (i : RegInput) (today : Date) :
    Except AppError String × AppState :=
  match register st.data i today with
  | .error e => (.error e, st)
  | .ok (code, d2) => (.ok code, { data := d2, saved := st.saved ++ [d2] })

/-- The payment branch as a state transition: on failure nothing is
touched and `save_data` is not called; on success the dataset is replaced
and persisted (line 150). -/
def recordPaymentApp (st : AppState) (code : String) (months_paid : Nat)
    (today : Date) : Except AppError Unit × AppState :=
  match recordPaymentDS st.data code months_paid today with
  | .error e => (.error e, st)
  | .ok d2 => (.ok (), { data := d2, saved := st.saved ++ [d2] })

/-- The Check Pending Payments branch, warning side (lines 116-125): one
`(code, contact, months_due, due_amount)` entry — a warning plus an SMS —
per member with `months_due > 0`. -/
def pendingWarnings (d : Dataset) (today : Date) :
    List (String × String × Int × Int) :=
  d.filterMap fun p =>
    if monthsDue p.2.last_payment today > 0 then
      some (p.1, p.2.contact, monthsDue p.2.last_payment today,
        monthsDue p.2.last_payment today * (MONTHLY_FEE : Int))
    else none

/-- The Check Pending Payments branch, "up to date" side (lines 126-127):
codes of the members with `months_due ≤ 0`. -/
def pendingUpToDate (d : Dataset) (today : Date) : List String :=
  d.filterMap fun p =>
    if monthsDue p.2.last_payment today > 0 then none else some p.1

/-- One row of the export report (lines 51-60). -/
structure Row where
  library_code : String
  name : String
  father_name : String
  address : String
  contact : String
  admission_date : Date
  payment_date : Date
  amount_paid : Nat
deriving DecidableEq, Repr

/-- The row built for one (member, payment) pair (lines 51-60). -/
def mkRow (code : String) (user : Member) (pay : Payment) : Row :=
  { library_code := code
    name := user.name
    father_name := user.father_name
    address := user.address
    contact := user.contact
    admission_date := user.admission_date
    payment_date := pay.date
    amount_paid := pay.amount }

/-- The helper `generate_report` (lines 46-61): one row per
(member, payment) pair, in dataset order then payment order. -/
def generate_report (d : Dataset) : List Row :=
  d.flatMap fun p => p.2.payments.map (mkRow p.1 p.2)

/-- A sequence of registration attempts run in order, collecting the
codes returned by the successful ones. -/
def registerAll (d : Dataset) : List (RegInput × Date) → Dataset × List String
  | [] => (d, [])
  | (i, t) :: rest =>
    match register d i t with
    | .error _ => registerAll d rest
    | .ok (c, d2) =>
      let r := registerAll d2 rest
      (r.1, c :: r.2)

/-- The library code allocated when the dataset holds `n` members. -/
def codeOf (n : Nat) : String := "L" ++ pyStr (n + 2025001)

/-- The invariant maintained by registration sequences that start from an
empty store: the dataset has exactly `n` entries and every key is a code
allocated at some earlier size. -/
abbrev RegInv (d : Dataset) (n : Nat) : Prop :=
  d.length = n ∧ ∀ p ∈ d, ∃ i, i < n ∧ p.1 = codeOf i

/-- Concrete registration form input used to exercise the theorems. -/
def regInput0 : RegInput :=
  { name := "Asha"
    father_name := "Ram"
    address := "12 Indrapuri"
    email := "asha@example.com"
    contact := "+911234567890"
    seatno := "S1" }

/-- Registration form input with an empty required name field. -/
def regInputBad : RegInput :=
  { name := ""
    father_name := "Ram"
    address := ""
    email := ""
    contact := "+911234567890"
    seatno := "" }

/-- A concrete registration date. -/
def dateReg : Date := ⟨2025, 1, 10⟩

/-- A concrete later payment date. -/
def datePay : Date := ⟨2025, 3, 15⟩

/-- The record registration builds from `regInput0` on `dateReg`. -/
def member0 : Member := mkNewMember regInput0 dateReg

/-- The code registration allocates on an empty dataset. -/
def code0 : String := "L" ++ pyStr 2025001

/-- A concrete library code written out as a literal. -/
def keyA : String := "L2025001"

/-- A concrete member record keyed by `keyA` in the fixtures. -/
def memberA : Member :=
  { name := "Asha"
    father_name := "Ram"
    address := "12 Indrapuri"
    email := "asha@example.com"
    contact := "+911234567890"
    seatno := "S1"
    admission_date := dateReg
    last_payment := dateReg
    payments := [{ date := dateReg, amount := MONTHLY_FEE }] }

/-- The state `memberA` reaches after a two-month payment on `datePay`. -/
def memberA2 : Member :=
  { memberA with
    last_payment := datePay
    payments := memberA.payments ++ [{ date := datePay, amount := 2 * MONTHLY_FEE }] }

/-- A concrete app state holding just `memberA`. -/
def stateA : AppState := { data := [(keyA, memberA)], saved := [] }

/-- A member with two recorded payments, for the report fixtures. -/
def payB1 : Payment := { date := dateReg, amount := 500 }

/-- The second recorded payment of the report fixtures. -/
def payB2 : Payment := { date := datePay, amount := 1000 }

/-- A concrete member record holding the two payments above. -/
def memberB : Member :=
  { memberA with payments := [payB1, payB2] }

/-- A member whose last payment lies in a month after the reference date. -/
def memberLate : Member :=
  { memberA with last_payment := ⟨2024, 3, 15⟩ }

/-- The single-member dataset around `memberLate`. -/
def dataLate : Dataset := [(keyA, memberLate)]

/-! Helper lemmas. -/

/-- Decimal digit characters determine the digit. -/
theorem digitChar_inj_lt : ∀ a < 10, ∀ b < 10,
    Nat.digitChar a = Nat.digitChar b → a = b := by decide

/-- Mapping `Nat.digitChar` over digit lists is injective. -/
theorem map_digitChar_inj : ∀ {l1 l2 : List Nat}, (∀ x ∈ l1, x < 10) →
    (∀ x ∈ l2, x < 10) → l1.map Nat.digitChar = l2.map Nat.digitChar → l1 = l2 := by
  intro l1
  induction l1 with
  | nil =>
    intro l2 _ _ h
    cases l2 with
    | nil => rfl
    | cons b t2 => simp at h
  | cons a t ih =>
    intro l2 h1 h2 h
    cases l2 with
    | nil => simp at h
    | cons b t2 =>
      simp only [List.map_cons, List.cons.injEq] at h
      have hab : a = b :=
        digitChar_inj_lt a (h1 a (List.mem_cons_self a t))
          b (h2 b (List.mem_cons_self b t2)) h.1
      have ht : t = t2 :=
        ih (fun x hx => h1 x (List.mem_cons_of_mem a hx))
          (fun x hx => h2 x (List.mem_cons_of_mem b hx)) h.2
      rw [hab, ht]

/-- On positive numbers, the decimal numeral determines the number. -/
theorem pyStr_inj_pos {m n : Nat} (hm : 0 < m) (hn : 0 < n)
    (h : pyStr m = pyStr n) : m = n := by
  unfold pyStr at h
  rw [if_neg (Nat.pos_iff_ne_zero.mp hm), if_neg (Nat.pos_iff_ne_zero.mp hn)] at h
  have h2 := List.asString_inj.mp h
  have h3 := List.reverse_injective h2
  have h4 := map_digitChar_inj
    (fun x hx => Nat.digits_lt_base (by norm_num) hx)
    (fun x hx => Nat.digits_lt_base (by norm_num) hx) h3
  exact Nat.digits.injective 10 h4

/-- Prepending the letter L to a string is injective. -/
theorem l_append_inj {s t : String} (h : "L" ++ s = "L" ++ t) : s = t := by
  cases s with
  | mk ds =>
    cases t with
    | mk dt =>
      have h2 : 'L' :: ds = 'L' :: dt := congrArg String.data h
      injection h2 with _ h3
      rw [h3]

/-- Allocated library codes are pairwise distinct. -/
theorem codeOf_injective : Function.Injective codeOf := by
  intro a b h
  have h2 := l_append_inj h
  have h3 := pyStr_inj_pos (by omega) (by omega) h2
  omega

/-- Looking up a key skips an entry with a different key. -/
theorem lookup_cons_ne (p : String × Member) (l : Dataset) (k : String)
    (h : p.1 ≠ k) : lookup (p :: l) k = lookup l k := by
  simp [lookup, List.find?_cons_of_neg, h]

/-- Looking up a key finds a matching head entry. -/
theorem lookup_cons_eq (p : String × Member) (l : Dataset) (k : String)
    (h : p.1 = k) : lookup (p :: l) k = some p.2 := by
  simp [lookup, List.find?_cons_of_pos, h]

/-- Appending a fresh entry makes it the lookup result. -/
theorem lookup_append_fresh (k : String) (v : Member) :
    ∀ d : Dataset, d.any (fun p => p.1 = k) = false →
      lookup (d ++ [(k, v)]) k = some v := by
  intro d
  induction d with
  | nil => intro _; simp [lookup, List.find?]
  | cons p rest ih =>
    intro h
    simp only [List.any_cons, Bool.or_eq_false_iff, decide_eq_false_iff_not] at h
    rw [List.cons_append, lookup_cons_ne p _ k h.1]
    exact ih (by simpa using h.2)

/-- Overwriting every entry at a present key makes the new value the
lookup result. -/
theorem lookup_overwrite (k : String) (v : Member) :
    ∀ d : Dataset, d.any (fun p => p.1 = k) = true →
      lookup (d.map (fun p => if p.1 = k then (k, v) else p)) k = some v := by
  intro d
  induction d with
  | nil => intro h; simp at h
  | cons p rest ih =>
    intro h
    by_cases hp : p.1 = k
    · rw [List.map_cons, if_pos hp, lookup_cons_eq (k, v) _ k rfl]
    · have h2 : rest.any (fun p => p.1 = k) = true := by
        simp only [List.any_cons] at h
        simpa [hp] using h
      rw [List.map_cons, if_neg hp, lookup_cons_ne p _ k hp]
      exact ih h2

/-- Dict assignment always leaves the assigned value at the key. -/
theorem lookup_dictInsert (d : Dataset) (k : String) (v : Member) :
    lookup (dictInsert d k v) k = some v := by
  unfold dictInsert
  by_cases hany : d.any (fun p => p.1 = k) = true
  · rw [if_pos hany]
    exact lookup_overwrite k v d hany
  · rw [if_neg hany]
    have hfalse : d.any (fun p => p.1 = k) = false := by
      cases hb : d.any (fun p => p.1 = k) with
      | false => rfl
      | true => exact absurd hb hany
    exact lookup_append_fresh k v d hfalse

/-- Updating the member at a present key, keeping every key in place,
makes the new value the lookup result. -/
theorem lookup_map_update (d : Dataset) (code : String) (v : Member)
    {u : Member} (hu : lookup d code = some u) :
    lookup (d.map (fun p => if p.1 = code then (p.1, v) else p)) code = some v := by
  induction d with
  | nil => simp [lookup] at hu
  | cons p rest ih =>
    by_cases hp : p.1 = code
    · rw [List.map_cons, if_pos hp, lookup_cons_eq (p.1, v) _ code hp]
    · have hu2 : lookup rest code = some u := by
        rwa [lookup_cons_ne p _ code hp] at hu
      rw [List.map_cons, if_neg hp, lookup_cons_ne p _ code hp]
      exact ih hu2

/-- A successful registration returns exactly the allocated code and the
dataset extended with the new record. -/
theorem register_ok {d : Dataset} {i : RegInput} {t : Date} {c : String}
    {d2 : Dataset} (h : register d i t = Except.ok (c, d2)) :
    c = "L" ++ pyStr (d.length + 2025001) ∧
      d2 = dictInsert d c (mkNewMember i t) := by
  unfold register at h
  split at h
  · exact absurd h (by simp)
  · simp only [Except.ok.injEq, Prod.mk.injEq] at h
    refine ⟨h.1.symm, ?_⟩
    rw [← h.2, h.1]

/-- One successful registration under the sequence invariant: the new
code is the one for the current size and the invariant moves to the next
size. -/
theorem register_step {d : Dataset} {n : Nat} {i : RegInput} {t : Date}
    {c : String} {d2 : Dataset} (hInv : RegInv d n)
    (h : register d i t = Except.ok (c, d2)) :
    c = codeOf n ∧ RegInv d2 (n + 1) := by
  obtain ⟨hc, hd2⟩ := register_ok h
  have hcode : c = codeOf n := by rw [hc, hInv.1]; rfl
  have hfresh : ∀ p ∈ d, p.1 ≠ c := by
    intro p hp hpc
    obtain ⟨j, hj, hpj⟩ := hInv.2 p hp
    rw [hpj, hcode] at hpc
    have := codeOf_injective hpc
    omega
  have hany : d.any (fun p => p.1 = c) = false := by
    cases hb : d.any (fun p => p.1 = c) with
    | false => rfl
    | true =>
      obtain ⟨p, hp, hpe⟩ := List.any_eq_true.mp hb
      exact absurd (of_decide_eq_true hpe) (hfresh p hp)
  have hins : dictInsert d c (mkNewMember i t) = d ++ [(c, mkNewMember i t)] := by
    unfold dictInsert
    rw [hany]
    simp
  refine ⟨hcode, ?_, ?_⟩
  · rw [hd2, hins]
    simp [hInv.1]
  · intro p hp
    rw [hd2, hins] at hp
    rcases List.mem_append.mp hp with h1 | h1
    · obtain ⟨j, hj, hpj⟩ := hInv.2 p h1
      exact ⟨j, by omega, hpj⟩
    · simp only [List.mem_singleton] at h1
      exact ⟨n, by omega, by rw [h1, hcode]⟩

/-- Any run of registration attempts starting under the invariant yields
codes for strictly increasing sizes. -/
theorem registerAll_codes (steps : List (RegInput × Date)) :
    ∀ d n, RegInv d n →
      ∃ l : List Nat, l.Pairwise (· < ·) ∧ (∀ j ∈ l, n ≤ j) ∧
        (registerAll d steps).2 = l.map codeOf := by
  induction steps with
  | nil =>
    intro d n _
    exact ⟨[], by simp, by simp, rfl⟩
  | cons s rest ih =>
    intro d n hInv
    obtain ⟨i, t⟩ := s
    cases hreg : register d i t with
    | error e =>
      obtain ⟨l, h1, h2, h3⟩ := ih d n hInv
      refine ⟨l, h1, h2, ?_⟩
      simp [registerAll, hreg, h3]
    | ok pr =>
      obtain ⟨c, d2⟩ := pr
      obtain ⟨hc, hInv2⟩ := register_step hInv hreg
      obtain ⟨l, h1, h2, h3⟩ := ih d2 (n + 1) hInv2
      refine ⟨n :: l, ?_, ?_, ?_⟩
      · refine List.pairwise_cons.mpr ⟨fun j hj => ?_, h1⟩
        have := h2 j hj
        omega
      · intro j hj
        rcases List.mem_cons.mp hj with h | h
        · omega
        · have := h2 j h
          omega
      · simp [registerAll, hreg, h3, hc]

/-- From an empty store, every run of registration attempts allocates
pairwise distinct codes. -/
theorem registerAll_nodup (steps : List (RegInput × Date)) :
    ((registerAll [] steps).2).Nodup := by
  obtain ⟨l, h1, _, h3⟩ := registerAll_codes steps [] 0 ⟨rfl, by simp⟩
  rw [h3]
  exact List.Nodup.map codeOf_injective (h1.imp fun h => Nat.ne_of_lt h)

/-! Claim theorems. -/

/-- C1: every valid registration against a dataset of N members returns
the member code `"L" + str(2025001 + N)`, and across any sequence of
registrations from an empty store (no deletions) the allocated codes are
pairwise distinct. -/
theorem C1_member_code_allocation (d : Dataset) (i : RegInput) (t : Date)
    (c : String) (d2 : Dataset) (h : register d i t = Except.ok (c, d2)) :
    c = "L" ++ pyStr (2025001 + d.length) ∧
    ∀ steps : List (RegInput × Date), ((registerAll [] steps).2).Nodup := by
  refine ⟨?_, registerAll_nodup⟩
  rw [(register_ok h).1, Nat.add_comm]

/-- Witness for C1 at a concrete registration on the empty dataset. -/
theorem C1_member_code_allocation_witness :
    code0 = "L" ++ pyStr (2025001 + ([] : Dataset).length) ∧
    ∀ steps : List (RegInput × Date), ((registerAll [] steps).2).Nodup :=
  C1_member_code_allocation [] regInput0 dateReg code0 [(code0, member0)] rfl

/-- C2: months overdue is the calendar year/month difference
`(as_of.year - last_payment.year) * 12 + (as_of.month - last_payment.month)`,
it never depends on the day of month, and in particular a payment on
2024-01-31 is one month overdue on 2024-02-01 while a payment on
2024-01-01 is zero months overdue on 2024-01-31. -/
theorem C2_months_due_calendar :
    (∀ lp a : Date, monthsDue lp a =
      ((a.year : Int) - (lp.year : Int)) * 12 +
        ((a.month : Int) - (lp.month : Int))) ∧
    (∀ y1 m1 d1 y2 m2 d2 d1a d2a : Nat,
      monthsDue ⟨y1, m1, d1⟩ ⟨y2, m2, d2⟩ = monthsDue ⟨y1, m1, d1a⟩ ⟨y2, m2, d2a⟩) ∧
    monthsDue ⟨2024, 1, 31⟩ ⟨2024, 2, 1⟩ = 1 ∧
    monthsDue ⟨2024, 1, 1⟩ ⟨2024, 1, 31⟩ = 0 :=
  ⟨fun _ _ => rfl, fun _ _ _ _ _ _ _ _ => rfl, by decide, by decide⟩

/-- C3: the record created by a successful registration carries exactly
one payment, of `MONTHLY_FEE`, dated on the admission date, and its last
payment equals the admission date. -/
theorem C3_registration_initial_payment (d : Dataset) (i : RegInput)
    (t : Date) (c : String) (d2 : Dataset)
    (h : register d i t = Except.ok (c, d2)) :
    ∃ u : Member, lookup d2 c = some u ∧
      u.payments = [{ date := u.admission_date, amount := MONTHLY_FEE }] ∧
      u.admission_date = t ∧ u.last_payment = u.admission_date := by
  obtain ⟨_, hd2⟩ := register_ok h
  refine ⟨mkNewMember i t, ?_, rfl, rfl, rfl⟩
  rw [hd2]
  exact lookup_dictInsert d c (mkNewMember i t)

/-- Witness for C3 at a concrete registration on the empty dataset. -/
theorem C3_registration_initial_payment_witness :
    ∃ u : Member, lookup [(code0, member0)] code0 = some u ∧
      u.payments = [{ date := u.admission_date, amount := MONTHLY_FEE }] ∧
      u.admission_date = dateReg ∧ u.last_payment = u.admission_date :=
  C3_registration_initial_payment [] regInput0 dateReg code0
    [(code0, member0)] rfl

/-- C4: recording a payment for any number of months at least one appends
exactly one payment of that many monthly fees dated on the reference
date, sets the last payment to the reference date, and the months
overdue as of that same date is then zero. -/
theorem C4_record_payment_effect (u : Member) (m : Nat) (t : Date)
    (hm : 1 ≤ m) :
    ∃ u2 : Member, recordPayment u m t = Except.ok u2 ∧
      u2.payments = u.payments ++ [{ date := t, amount := m * MONTHLY_FEE }] ∧
      u2.last_payment = t ∧ monthsDue u2.last_payment t = 0 := by
  refine ⟨{ u with
            last_payment := t
            payments := u.payments ++ [{ date := t, amount := m * MONTHLY_FEE }] },
          ?_, rfl, rfl, ?_⟩
  · unfold recordPayment
    rw [if_neg (by omega)]
  · show monthsDue t t = 0
    unfold monthsDue
    ring

/-- Witness for C4: a two-month payment on a concrete member. -/
theorem C4_record_payment_effect_witness :
    ∃ u2 : Member, recordPayment memberA 2 datePay = Except.ok u2 ∧
      u2.payments = memberA.payments ++
        [{ date := datePay, amount := 2 * MONTHLY_FEE }] ∧
      u2.last_payment = datePay ∧ monthsDue u2.last_payment datePay = 0 :=
  C4_record_payment_effect memberA 2 datePay (by decide)

/-- C5: a registration attempt with an empty name, father name or
contact fails with a validation error, allocates nothing, and leaves the
in-memory dataset and the persisted snapshots unchanged. -/
theorem C5_registration_validation (st : AppState) (i : RegInput)
    (t : Date) (h : i.name = "" ∨ i.father_name = "" ∨ i.contact = "") :
    registerApp st i t = (Except.error AppError.validationError, st) := by
  unfold registerApp register
  rw [if_pos h]

/-- Witness for C5: registering with an empty name on a concrete state. -/
theorem C5_registration_validation_witness :
    registerApp stateA regInputBad dateReg =
      (Except.error AppError.validationError, stateA) :=
  C5_registration_validation stateA regInputBad dateReg (Or.inl rfl)

/-- C6: loading returns the empty mapping when no persisted file exists,
the full parsed mapping when the file is well formed, and propagates a
storage error — rather than resetting to empty — when the file exists
but cannot be parsed. -/
theorem C6_load_data :
    load_data FileState.absent = Except.ok [] ∧
    (∀ d : Dataset, load_data (FileState.present (Except.ok d)) = Except.ok d) ∧
    (∀ e : String, load_data (FileState.present (Except.error e)) =
      Except.error (AppError.storageError e)) :=
  ⟨rfl, fun _ => rfl, fun _ => rfl⟩

/-- C7: a payment-recording attempt for fewer than one month fails with a
validation error, appends no payment, and leaves the state — including
the fetched member and the persisted snapshots — unchanged. -/
theorem C7_months_validation (st : AppState) (code : String) (u : Member)
    (m : Nat) (t : Date) (hc : lookup st.data code = some u) (hm : m < 1) :
    recordPaymentApp st code m t = (Except.error AppError.validationError, st) ∧
    recordPayment u m t = Except.error AppError.validationError := by
  have hrp : recordPayment u m t = Except.error AppError.validationError := by
    unfold recordPayment
    rw [if_pos hm]
  refine ⟨?_, hrp⟩
  unfold recordPaymentApp recordPaymentDS
  rw [hc]
  dsimp only
  rw [hrp]

/-- Witness for C7: a zero-month attempt on a concrete state. -/
theorem C7_months_validation_witness :
    recordPaymentApp stateA keyA 0 datePay =
      (Except.error AppError.validationError, stateA) ∧
    recordPayment memberA 0 datePay = Except.error AppError.validationError :=
  C7_months_validation stateA keyA memberA 0 datePay rfl (by decide)

/-- The report rows of a dataset extended at the front. -/
theorem generate_report_cons (p : String × Member) (rest : Dataset) :
    generate_report (p :: rest) =
      p.2.payments.map (mkRow p.1 p.2) ++ generate_report rest := by
  simp [generate_report]

/-- The report has one row per (member, payment) pair. -/
theorem generate_report_length (d : Dataset) :
    (generate_report d).length = (d.map (fun p => p.2.payments.length)).sum := by
  induction d with
  | nil => rfl
  | cons p rest ih =>
    rw [generate_report_cons]
    simp [ih]

/-- C8: flattening yields exactly one row per (member, payment) pair
with the member's static columns and the payment's date and amount, a
member with an empty payments list contributes zero rows, and a
one-member dataset with two payments yields exactly the two rows sharing
that member's static fields. -/
theorem C8_report_flatten (d : Dataset) (k : String) (u : Member)
    (p1 p2 : Payment) (h2 : u.payments = [p1, p2]) :
    (generate_report d).length = (d.map (fun p => p.2.payments.length)).sum ∧
    (∀ r : Row, r ∈ generate_report d ↔
      ∃ p, p ∈ d ∧ ∃ pay, pay ∈ p.2.payments ∧ r = mkRow p.1 p.2 pay) ∧
    (∀ (k2 : String) (u2 : Member), u2.payments = [] →
      generate_report [(k2, u2)] = []) ∧
    generate_report [(k, u)] = [mkRow k u p1, mkRow k u p2] := by
  refine ⟨generate_report_length d, ?_, ?_, ?_⟩
  · intro r
    simp only [generate_report, List.mem_flatMap, List.mem_map]
    constructor
    · rintro ⟨p, hp, pay, hpay, hr⟩
      exact ⟨p, hp, pay, hpay, hr.symm⟩
    · rintro ⟨p, hp, pay, hpay, hr⟩
      exact ⟨p, hp, pay, hpay, hr.symm⟩
  · intro k2 u2 h0
    simp [generate_report, h0]
  · simp [generate_report, h2]

/-- Witness for C8 on a concrete one-member, two-payment dataset. -/
theorem C8_report_flatten_witness :
    (generate_report [(keyA, memberB)]).length =
      (([(keyA, memberB)] : Dataset).map (fun p => p.2.payments.length)).sum ∧
    (∀ r : Row, r ∈ generate_report [(keyA, memberB)] ↔
      ∃ p, p ∈ ([(keyA, memberB)] : Dataset) ∧
        ∃ pay, pay ∈ p.2.payments ∧ r = mkRow p.1 p.2 pay) ∧
    (∀ (k2 : String) (u2 : Member), u2.payments = [] →
      generate_report [(k2, u2)] = []) ∧
    generate_report [(keyA, memberB)] =
      [mkRow keyA memberB payB1, mkRow keyA memberB payB2] :=
  C8_report_flatten [(keyA, memberB)] keyA memberB payB1 payB2 rfl

/-- C9: recording a payment changes only the target member's payments
list (by appending one entry, keeping every earlier entry) and its last
payment; every other field of the member, every other member, and the
key structure of the dataset are untouched, and no record is removed. -/
theorem C9_payment_frame (d : Dataset) (code : String) (m : Nat) (t : Date)
    (d2 : Dataset) (u : Member)
    (h : recordPaymentDS d code m t = Except.ok d2)
    (hu : lookup d code = some u) :
    d2.map Prod.fst = d.map Prod.fst ∧ d2.length = d.length ∧
    (∀ p ∈ d, p.1 ≠ code → p ∈ d2) ∧
    ∃ u2 : Member, lookup d2 code = some u2 ∧
      u2.name = u.name ∧ u2.father_name = u.father_name ∧
      u2.address = u.address ∧ u2.email = u.email ∧
      u2.contact = u.contact ∧ u2.seatno = u.seatno ∧
      u2.admission_date = u.admission_date ∧
      u2.payments = u.payments ++ [{ date := t, amount := m * MONTHLY_FEE }] ∧
      u2.last_payment = t := by
  unfold recordPaymentDS at h
  rw [hu] at h
  dsimp only at h
  by_cases hm : m < 1
  · rw [show recordPayment u m t = Except.error AppError.validationError from by
      unfold recordPayment; rw [if_pos hm]] at h
    exact absurd h (by simp)
  · rw [show recordPayment u m t = Except.ok
        { u with
          last_payment := t
          payments := u.payments ++ [{ date := t, amount := m * MONTHLY_FEE }] } from by
      unfold recordPayment; rw [if_neg hm]] at h
    simp only [Except.ok.injEq] at h
    subst h
    refine ⟨?_, by simp, ?_, ?_⟩
    · rw [List.map_map]
      apply List.map_congr_left
      intro p _
      by_cases hp : p.1 = code <;> simp [hp]
    · intro p hp hpc
      have hfp : (if p.1 = code then (p.1,
          { u with
            last_payment := t
            payments := u.payments ++ [{ date := t, amount := m * MONTHLY_FEE }] })
        else p) = p := if_neg hpc
      rw [← hfp]
      exact List.mem_map_of_mem _ hp
    · exact ⟨_, lookup_map_update d code _ hu, rfl, rfl, rfl, rfl, rfl, rfl,
        rfl, rfl, rfl⟩

/-- Witness for C9: a concrete two-month payment on a one-member
dataset. -/
theorem C9_payment_frame_witness :
    ([(keyA, memberA2)] : Dataset).map Prod.fst =
      ([(keyA, memberA)] : Dataset).map Prod.fst ∧
    ([(keyA, memberA2)] : Dataset).length = ([(keyA, memberA)] : Dataset).length ∧
    (∀ p ∈ ([(keyA, memberA)] : Dataset), p.1 ≠ keyA → p ∈ ([(keyA, memberA2)] : Dataset)) ∧
    ∃ u2 : Member, lookup [(keyA, memberA2)] keyA = some u2 ∧
      u2.name = memberA.name ∧ u2.father_name = memberA.father_name ∧
      u2.address = memberA.address ∧ u2.email = memberA.email ∧
      u2.contact = memberA.contact ∧ u2.seatno = memberA.seatno ∧
      u2.admission_date = memberA.admission_date ∧
      u2.payments = memberA.payments ++
        [{ date := datePay, amount := 2 * MONTHLY_FEE }] ∧
      u2.last_payment = datePay :=
  C9_payment_frame [(keyA, memberA)] keyA 2 datePay [(keyA, memberA2)]
    memberA rfl rfl

/-- C10: when a member's last payment lies in a calendar month strictly
after the reference month, the computed months due is negative, and the
pending-payments check treats every member with months due at most zero
as up to date: it is listed as up to date and no warning or notification
carries its code. -/
theorem C10_negative_months_up_to_date (lp t : Date)
    (hm1 : 1 ≤ lp.month) (hm2 : lp.month ≤ 12)
    (hm3 : 1 ≤ t.month) (hm4 : t.month ≤ 12)
    (hlater : t.year < lp.year ∨ (t.year = lp.year ∧ t.month < lp.month)) :
    monthsDue lp t < 0 ∧
    ∀ d : Dataset, (d.map Prod.fst).Nodup →
      ∀ p ∈ d, monthsDue p.2.last_payment t ≤ 0 →
        p.1 ∈ pendingUpToDate d t ∧
        ∀ w ∈ pendingWarnings d t, w.1 ≠ p.1 := by
  constructor
  · unfold monthsDue
    omega
  · intro d hnd p hp hle
    constructor
    · unfold pendingUpToDate
      rw [List.mem_filterMap]
      refine ⟨p, hp, ?_⟩
      rw [if_neg (by omega)]
    · intro w hw hwp
      unfold pendingWarnings at hw
      rw [List.mem_filterMap] at hw
      obtain ⟨q, hq, hfq⟩ := hw
      by_cases hgt : monthsDue q.2.last_payment t > 0
      · rw [if_pos hgt] at hfq
        have hw2 := Option.some.inj hfq
        have hq1 : q.1 = p.1 := by
          rw [congrArg Prod.fst hw2, hwp]
        have hqp : q = p :=
          List.inj_on_of_nodup_map hnd hq hp hq1
        rw [hqp] at hgt
        omega
      · rw [if_neg hgt] at hfq
        exact absurd hfq (by simp)

/-- Witness for C10 at a last payment of 2024-03-15 against a reference
date of 2024-02-10. -/
theorem C10_negative_months_up_to_date_witness :
    monthsDue ⟨2024, 3, 15⟩ ⟨2024, 2, 10⟩ < 0 ∧
    ∀ d : Dataset, (d.map Prod.fst).Nodup →
      ∀ p ∈ d, monthsDue p.2.last_payment ⟨2024, 2, 10⟩ ≤ 0 →
        p.1 ∈ pendingUpToDate d ⟨2024, 2, 10⟩ ∧
        ∀ w ∈ pendingWarnings d ⟨2024, 2, 10⟩, w.1 ≠ p.1 :=
  C10_negative_months_up_to_date ⟨2024, 3, 15⟩ ⟨2024, 2, 10⟩ (by decide)
    (by decide) (by decide) (by decide) (Or.inr ⟨rfl, by decide⟩)

end ReaderSpace
